import Mathlib

/-!
Verification of the semantic core of an LLVM-IR toolkit: local-ID assignment
and canonical printing of functions (`src/ir/func.go`), and AST-constant
lowering with deferred block-address fixup (`src/asm/const.go`).

The Go code is shallowly embedded: pure functions become Lean functions, the
in-place mutation performed by `AssignIDs` / `fixBlockAddressConst` becomes
explicit state passing (the updated value is returned), and Go's
`(value, error)` returns become `Except`.  Local IDs are Go `int64`; they are
modelled as `Int` (the ID counter is bounded by the number of locals of one
function, so 64-bit overflow is unreachable and is not modelled).  The
`sync.Mutex` in `Func` only serializes the pass and has no sequential
semantics, so it is not modelled.
-/

/-- Type variants consulted by the shown source: `types.Void` equality in
`isVoidValue`, and the variant tests (`*types.IntType` with `BitSize`,
`*types.FloatType`, `*types.PointerType`, `*types.StructType`,
`*types.ArrayType`, `*types.VectorType`) in constant lowering.  Element/field
type payloads are never inspected by this code, so they are not carried. -/
inductive Ty where
  | void
  | int (bits : Nat)
  | float
  | ptr
  | structTy
  | arrayTy
  | vectorTy
  | token
  | label
  deriving DecidableEq, Repr

/-- Error taxonomy of the core (spec section 7).  Each constructor carries the
context the corresponding Go error message reports. -/
inductive Err where
  /-- An AST constant's shape does not match its expected type
  (`invalid type of ... constant; expected ..., got ...`). -/
  | typeMismatch (constKind : String) (got : Ty)
  /-- Boolean constants require an integer type of bit size exactly 1
  (`invalid integer type bit size of boolean constant; expected 1, got ...`). -/
  | boolBitSize (got : Nat)
  /-- Integer/float literal text cannot be parsed. -/
  | malformedLiteral (text : String)
  /-- A referenced global name is absent from the symbol table. -/
  | unresolvedSymbol (name : String)
  /-- A global resolved to a non-function value where a function was needed. -/
  | notAFunction (name : String)
  /-- A block-address fixup found no block with the referenced name
  (`unable to locate basic block ... in function ...`). -/
  | danglingBlockReference (blockName : String) (funcName : String)
  /-- An anonymous local carried an explicit non-zero ID different from the
  next expected sequence value
  (`invalid local ID in function ..., expected ..., got ...`). -/
  | invalidLocalID (funcName : String) (expected : Int) (actual : Int)
  deriving DecidableEq, Repr

/-- Local identifier (ir.LocalIdent): a user-given name XOR an anonymous
marker carrying an integer ID; anonymous locals start at the unassigned
sentinel ID 0 (spec section 3). -/
inductive LocalIdent where
  | named (s : String)
  | anon (id : Int)
  deriving DecidableEq, Repr

/-- IsUnnamed of the `local` interface. -/
def LocalIdent.isUnnamed : LocalIdent → Bool
  | .named _ => false
  | .anon _ => true

/-- ID of the `local` interface (the `LocalID` field; 0 on named locals). -/
def LocalIdent.localID : LocalIdent → Int
  | .named _ => 0
  | .anon i => i

/-- LocalName string of a basic-block identity: the given name, or the empty
string while the block is anonymous. -/
def LocalIdent.localName : LocalIdent → String
  | .named s => s
  | .anon _ => ""

/-- Non-terminator instruction, as seen by `Func.AssignIDs`:
`call` is the one value instruction whose static result type may be void
(checked by `isVoidValue`, which type-switches on `*ir.InstCall` only);
`value` stands for every other instruction implementing the `local`
interface (their result types are never void and are never consulted);
`nonvalue` stands for instructions that do not implement `local`
(e.g. store), for which the `inst.(local)` type assertion fails. -/
inductive Inst where
  | call (retTy : Ty) (name : LocalIdent)
  | value (name : LocalIdent)
  | nonvalue
  deriving DecidableEq, Repr

/-- Terminator, as seen by `Func.AssignIDs`: `invoke` (ir.TermInvoke) is the
terminator implementing the `local` interface whose result type may be void;
`ret` stands for terminators that do not implement `local` (ret, br, ...),
for which the `block.Term.(local)` type assertion fails. -/
inductive Term where
  | invoke (retTy : Ty) (name : LocalIdent)
  | ret
  deriving DecidableEq, Repr

/-- Function parameter (ir.Param).  `text` is the output of `Param.LLString`,
a printer defined outside the shown source and consumed by `headerString`
as a black box producing text. -/
structure Param where
  text : String := ""
  ident : LocalIdent
  deriving DecidableEq, Repr

/-- Basic block (ir.BasicBlock): identity, ordered non-terminator
instructions, terminator.  `term` is an `Option` because the placeholder
blocks built by block-address lowering carry a nil terminator. -/
structure Block where
  name : LocalIdent
  insts : List Inst := []
  term : Option Term := none
  deriving DecidableEq, Repr

/-- LocalName of a block's identity. -/
def Block.localName (b : Block) : String :=
  b.name.localName

/-- Comdat clause of a function header.  `refText` is the textual form of the
explicit comdat reference (`ComdatDef.String`, defined outside the shown
source), consumed as a black box producing text. -/
structure Comdat where
  name : String
  refText : String := ""
  deriving DecidableEq, Repr

/-- LLVM IR function (ir.Func).  Optional attributes use `Option`/empty as
the Go zero-value "not present" sentinels.  Fields holding text rendered by
printers outside the shown source (`retType` for `Sig.RetType`,
`callingConv` for `callingConvString`, attribute/metadata/constant strings)
carry that text directly.  The Go fields `Prefix` and `Prologue` are renamed
`prefixConst` and `prologueConst` (reserved words here). -/
structure Func where
  name : String := ""
  retType : String := "void"
  variadic : Bool := false
  params : List Param := []
  blocks : List Block := []
  linkage : Option String := none
  preemption : Option String := none
  visibility : Option String := none
  dllStorageClass : Option String := none
  callingConv : Option String := none
  returnAttrs : List String := []
  unnamedAddr : Option String := none
  funcAttrs : List String := []
  sectionName : String := ""
  comdat : Option Comdat := none
  gc : String := ""
  prefixConst : Option String := none
  prologueConst : Option String := none
  personality : Option String := none
  metadata : List String := []
  useListOrders : List String := []
  deriving DecidableEq, Repr

/-- The `setName` closure of `Func.AssignIDs` (src/ir/func.go lines 153-165):
named locals are left untouched; an anonymous local whose pre-existing ID is
non-zero and differs from the next expected value is an `invalidLocalID`
error; otherwise the local receives the next ID and the counter advances. -/
def setName (fname : String) : LocalIdent → Int → Except Err (LocalIdent × Int)
  | .named s, id => .ok (.named s, id)
  | .anon i, id =>
    if i ≠ 0 ∧ id ≠ i then
      .error (.invalidLocalID fname id i)
    else
      .ok (.anon id, id + 1)

/-- The `isVoidValue` test (src/ir/func.go lines 300-306) restricted to
non-terminator instructions: only a call is type-switched, every other
case yields false. -/
def isVoidValueInst : Inst → Bool
  | .call t _ => t = .void
  | _ => false

/-- The `isVoidValue` test restricted to terminators: only an invoke is
type-switched. -/
def isVoidValueTerm : Term → Bool
  | .invoke t _ => t = .void
  | _ => false

/-- One iteration of the instruction loop of `Func.AssignIDs`
(src/ir/func.go lines 177-192): skip instructions that do not implement
`local`, skip void-valued calls, otherwise number the result identifier. -/
def assignInst (fname : String) (i : Inst) (id : Int) : Except Err (Inst × Int) :=
  match i with
  | .nonvalue => .ok (.nonvalue, id)
  | .call ty n =>
    if ty = .void then
      .ok (.call ty n, id)
    else
      match setName fname n id with
      | .error e => .error e
      | .ok (n', id') => .ok (.call ty n', id')
  | .value n =>
    match setName fname n id with
    | .error e => .error e
    | .ok (n', id') => .ok (.value n', id')

/-- The instruction loop of `Func.AssignIDs` over a block's instruction
list, stopping at the first error. -/
def assignInsts (fname : String) : List Inst → Int → Except Err (List Inst × Int)
  | [], id => .ok ([], id)
  | i :: rest, id =>
    match assignInst fname i id with
    | .error e => .error e
    | .ok (i', id') =>
      match assignInsts fname rest id' with
      | .error e => .error e
      | .ok (rest', id'') => .ok (i' :: rest', id'')

/-- The terminator step of `Func.AssignIDs` (src/ir/func.go lines 193-202):
skip terminators that do not implement `local` (including the nil terminator
of a placeholder block), skip void-valued invokes, otherwise number the
result identifier. -/
def assignTerm (fname : String) (t : Option Term) (id : Int) :
    Except Err (Option Term × Int) :=
  match t with
  | none => .ok (none, id)
  | some .ret => .ok (some .ret, id)
  | some (.invoke ty n) =>
    if ty = .void then
      .ok (some (.invoke ty n), id)
    else
      match setName fname n id with
      | .error e => .error e
      | .ok (n', id') => .ok (some (.invoke ty n'), id')

/-- One iteration of the block loop of `Func.AssignIDs` (src/ir/func.go
lines 172-203): number the block identity, then the instructions, then the
terminator. -/
def assignBlock (fname : String) (b : Block) (id : Int) : Except Err (Block × Int) :=
  match setName fname b.name id with
  | .error e => .error e
  | .ok (n', id1) =>
    match assignInsts fname b.insts id1 with
    | .error e => .error e
    | .ok (insts', id2) =>
      match assignTerm fname b.term id2 with
      | .error e => .error e
      | .ok (term', id3) => .ok ({ name := n', insts := insts', term := term' }, id3)

/-- The block loop of `Func.AssignIDs` over the block list. -/
def assignBlocks (fname : String) : List Block → Int → Except Err (List Block × Int)
  | [], id => .ok ([], id)
  | b :: rest, id =>
    match assignBlock fname b id with
    | .error e => .error e
    | .ok (b', id') =>
      match assignBlocks fname rest id' with
      | .error e => .error e
      | .ok (rest', id'') => .ok (b' :: rest', id'')

/-- The parameter loop of `Func.AssignIDs` (src/ir/func.go lines 166-171). -/
def assignParams (fname : String) : List Param → Int → Except Err (List Param × Int)
  | [], id => .ok ([], id)
  | p :: rest, id =>
    match setName fname p.ident id with
    | .error e => .error e
    | .ok (n', id') =>
      match assignParams fname rest id' with
      | .error e => .error e
      | .ok (rest', id'') => .ok ({ p with ident := n' } :: rest', id'')

/-- Func.AssignIDs (src/ir/func.go lines 147-205): a no-op on declarations
(zero blocks); otherwise numbers parameters, then each block's identity,
instructions and terminator, starting from ID 0.  The Go in-place mutation
is modelled by returning the renumbered function. -/
def AssignIDs (f : Func) : Except Err Func :=
  if f.blocks.isEmpty then
    .ok f
  else
    match assignParams f.name f.params 0 with
    | .error e => .error e
    | .ok (ps, id1) =>
      match assignBlocks f.name f.blocks id1 with
      | .error e => .error e
      | .ok (bs, _) => .ok { f with params := ps, blocks := bs }

/-- IDs of the anonymous locals visited by one `setName` call site. -/
def identAnonIDs : LocalIdent → List Int
  | .named _ => []
  | .anon i => [i]

/-- IDs of the anonymous locals an instruction contributes to the numbering
order (none when the instruction is skipped by `AssignIDs`). -/
def instAnonIDs : Inst → List Int
  | .nonvalue => []
  | .call ty n => if ty = .void then [] else identAnonIDs n
  | .value n => identAnonIDs n

/-- IDs of the anonymous locals a terminator contributes to the numbering
order. -/
def termAnonIDs : Option Term → List Int
  | none => []
  | some .ret => []
  | some (.invoke ty n) => if ty = .void then [] else identAnonIDs n

/-- IDs of the anonymous locals of one block, in the numbering order of
`AssignIDs`: block identity, then instruction results, then the terminator
result. -/
def blockAnonIDs (b : Block) : List Int :=
  identAnonIDs b.name ++ (b.insts.map instAnonIDs).flatten ++ termAnonIDs b.term

/-- IDs of the anonymous locals of a whole function, in the numbering order
of `AssignIDs`: parameters in declaration order, then the blocks in block
list order. -/
def funcAnonIDs (f : Func) : List Int :=
  (f.params.map (fun p => identAnonIDs p.ident)).flatten
    ++ (f.blocks.map blockAnonIDs).flatten

/-- The dense integer sequence start, start+1, ..., start+k-1. -/
def idsFrom (start : Int) : Nat → List Int
  | 0 => []
  | k + 1 => start :: idsFrom (start + 1) k

/-- Concatenation of a list of strings, each preceded by exactly one space:
the shape of every `fmt.Fprintf(buf, " %s", x)` loop in the printer. -/
def spacedConcat : List String → String
  | [] => ""
  | s :: rest => " " ++ s ++ spacedConcat rest

/-- Optional-field emission: Go's `if field != none { fmt.Fprintf(buf, " %s", field) }`. -/
def optField : Option String → String
  | none => ""
  | some s => " " ++ s

/-- Modelled from the spec: `quote` (defined outside the shown source) wraps
a string in double quotes — "section name (quoted if present)",
"garbage-collector tag (quoted)".  Escaping is not modelled. -/
def quote (s : String) : String :=
  "\"" ++ s ++ "\""

/-- Modelled from the spec: global identifiers print with a `@` sigil
(`enc.Global`, defined outside the shown source); name escaping is not
modelled. -/
def globalIdentString (name : String) : String :=
  "@" ++ name

/-- The parameter-list loop of `headerString` (src/ir/func.go lines 233-245):
comma-separated parameter texts, a trailing `...` when variadic (preceded by
a comma when at least one parameter was printed). -/
def paramListString (f : Func) : String :=
  String.intercalate ", " (f.params.map (fun p => p.text))
    ++ (if f.variadic then (if f.params.length > 0 then ", ..." else "...") else "")

/-- headerString (src/ir/func.go lines 210-275): the fixed optional-field
sequence of the function header, transcribed append by append. -/
def headerString (f : Func) : String :=
  optField f.preemption
    ++ optField f.visibility
    ++ optField f.dllStorageClass
    ++ optField f.callingConv
    ++ spacedConcat f.returnAttrs
    ++ " " ++ f.retType
    ++ " " ++ globalIdentString f.name ++ "(" ++ paramListString f ++ ")"
    ++ optField f.unnamedAddr
    ++ spacedConcat f.funcAttrs
    ++ (if f.sectionName.length > 0 then " section " ++ quote f.sectionName else "")
    ++ (match f.comdat with
        | none => ""
        | some c => if c.name = f.name then " comdat" else " " ++ c.refText)
    ++ (if f.gc.length > 0 then " gc " ++ quote f.gc else "")
    ++ (match f.prefixConst with
        | none => ""
        | some s => " prefix " ++ s)
    ++ (match f.prologueConst with
        | none => ""
        | some s => " prologue " ++ s)
    ++ (match f.personality with
        | none => ""
        | some s => " personality " ++ s)

/-- The header as the spec words it (spec section 4.4): an ordered list of
fields, each present only if non-default, in the fixed order preemption,
visibility, DLL storage class, calling convention, return attributes, return
type, identifier with parenthesized parameter list, unnamed-address, function
attributes, quoted section, comdat clause (bare `comdat` when the comdat's
name equals the function's own name), quoted GC tag, prefix, prologue,
personality.  Used only to compare against `headerString`. -/
def specHeaderFields (f : Func) : List String :=
  f.preemption.toList
    ++ f.visibility.toList
    ++ f.dllStorageClass.toList
    ++ f.callingConv.toList
    ++ f.returnAttrs
    ++ [f.retType]
    ++ [globalIdentString f.name ++ "(" ++ paramListString f ++ ")"]
    ++ f.unnamedAddr.toList
    ++ f.funcAttrs
    ++ (if f.sectionName.length > 0 then ["section " ++ quote f.sectionName] else [])
    ++ (match f.comdat with
        | none => []
        | some c => [if c.name = f.name then "comdat" else c.refText])
    ++ (if f.gc.length > 0 then ["gc " ++ quote f.gc] else [])
    ++ (match f.prefixConst with
        | none => []
        | some s => ["prefix " ++ s])
    ++ (match f.prologueConst with
        | none => []
        | some s => ["prologue " ++ s])
    ++ (match f.personality with
        | none => []
        | some s => ["personality " ++ s])

/-- The spec-side header text: every field of `specHeaderFields`, each
preceded by exactly one space. -/
def specHeaderString (f : Func) : String :=
  spacedConcat (specHeaderFields f)

/-- Modelled from the spec: a basic block's own textual form is produced by
the block printer, an external collaborator "consumed here only as a black
box producing text" (spec section 4.4); we render just the block's label
line. -/
def blockLLString (b : Block) : String :=
  match b.name with
  | .named s => s ++ ":"
  | .anon i => toString i ++ ":"

/-- bodyString (src/ir/func.go lines 278-296): opening brace, each block's
text separated by one blank line, trailing use-list-order directives
(indented, one per line) if any, closing brace. -/
def bodyString (f : Func) : String :=
  "\x7b\n"
    ++ String.intercalate "\n" (f.blocks.map (fun b => blockLLString b ++ "\n"))
    ++ (if f.useListOrders.length > 0 then "\n" else "")
    ++ String.join (f.useListOrders.map (fun u => "\t" ++ u ++ "\n"))
    ++ "\x7d"

/-- Outcome of `Func.LLString`.  The Go function returns a plain string and
aborts by panicking when ID assignment fails; `panicked` models that panic,
carrying the numbering error the panic message wraps. -/
inductive Printed where
  | text (s : String)
  | panicked (e : Err)
  deriving DecidableEq, Repr

/-- Func.LLString (src/ir/func.go lines 109-144): declarations print
`declare`, metadata, optional linkage and the header; definitions first run
`AssignIDs` — panicking if it fails — then print `define`, optional linkage,
header, metadata and the body. -/
def LLString (f : Func) : Printed :=
  if f.blocks.isEmpty then
    .text ("declare" ++ spacedConcat f.metadata ++ optField f.linkage ++ headerString f)
  else
    match AssignIDs f with
    | .error e => .panicked e
    | .ok f' =>
      .text ("define" ++ optField f'.linkage ++ headerString f'
        ++ spacedConcat f'.metadata ++ " " ++ bodyString f')

/-- IR constant values (the `ir.Constant` implementations the shown lowering
produces).  `funcC` is an `ir.Func` used as a constant (functions are
constants in LLVM IR and are what the symbol table stores for them). -/
inductive Constant where
  | intC (t : Ty) (v : Int)
  | floatC (t : Ty) (lit : String)
  | null (t : Ty)
  | noneC
  | structC (t : Ty) (fields : List Constant)
  | arrayC (t : Ty) (elems : List Constant)
  | charArray (data : List Nat)
  | vectorC (t : Ty) (elems : List Constant)
  | zeroInit (t : Ty)
  | undef (t : Ty)
  | blockAddr (fn : Func) (block : Block)
  | funcC (fn : Func)

/-- constant.True: the 1-bit integer constant 1. -/
def constantTrue : Constant :=
  .intC (.int 1) 1

/-- constant.False: the 1-bit integer constant 0. -/
def constantFalse : Constant :=
  .intC (.int 1) 0

/-- A block-address constant (constant.BlockAddress): a function reference
and a block reference, the latter initially a placeholder carrying only the
referenced block's name. -/
structure BlockAddress where
  fn : Func
  block : Block
  deriving DecidableEq, Repr

/-- Lowering state of the asm generator that the shown source touches: the
module symbol table `gs` (read-only here) and the deferred-fixup queue
`todo` (append-only during lowering). -/
structure Gen where
  gs : List (String × Constant) := []
  todo : List BlockAddress := []

/-- Lookup in the generator's global symbol table (Go map indexing
`gen.gs[name]`). -/
def lookupGS : List (String × Constant) → String → Option Constant
  | [], _ => none
  | (k, v) :: rest, name => if k = name then some v else lookupGS rest name

/-- Modelled from the spec: `gen.function` (defined outside the shown
source) resolves a global function name through the module symbol table
(spec section 6), failing with `unresolvedSymbol` when the name is missing
and with `notAFunction` when it resolves to a non-function value. -/
def Gen.function (gen : Gen) (name : String) : Except Err Func :=
  match lookupGS gen.gs name with
  | none => .error (.unresolvedSymbol name)
  | some (.funcC f) => .ok f
  | some _ => .error (.notAFunction name)

/-- generator.irBlockAddressConst (src/asm/const.go lines 198-217): resolve
the function eagerly, build a dummy basic block carrying only the referenced
block name, return the new constant and append it to the deferred-fixup
queue.  The expected type `t` is not validated (a TODO in the source). -/
def irBlockAddressConst (gen : Gen) (t : Ty) (funcName blockName : String) :
    Except Err (Constant × Gen) :=
  match gen.function funcName with
  | .error e => .error e
  | .ok f =>
    .ok (.blockAddr f { name := .named blockName },
      { gen with todo := gen.todo ++ [{ fn := f, block := { name := .named blockName } }] })

/-- The scan loop of `fixBlockAddressConst`: first block of the list whose
LocalName equals the referenced name. -/
def findBlockByName : List Block → String → Option Block
  | [], _ => none
  | b :: rest, name => if b.localName = name then some b else findBlockByName rest name

/-- fixBlockAddressConst (src/asm/const.go lines 220-230): replace the
placeholder block with the block of the (now finalized) function whose name
matches, or fail with a dangling-block-reference error naming the block and
the function. -/
def fixBlockAddressConst (c : BlockAddress) : Except Err BlockAddress :=
  match findBlockByName c.fn.blocks c.block.localName with
  | some b => .ok { c with block := b }
  | none => .error (.danglingBlockReference c.block.localName c.fn.name)

/-- Modelled from the spec: `constant.NewIntFromString` (defined outside the
shown source) parses the literal text at the declared integer type; "parse
failure is a MalformedLiteral condition".  LLVM hexadecimal literal forms
are not modelled. -/
def newIntFromString (t : Ty) (s : String) : Except Err Constant :=
  match s.toInt? with
  | some v => .ok (.intC t v)
  | none => .error (.malformedLiteral s)

/-- AST constant nodes (the `ast.Constant` variants the shown dispatch
handles).  Aggregate elements are `ast.TypeConst` pairs; their type operand
is carried already resolved (`gen.irType`, the module type registry, is an
external collaborator consumed read-only and is modelled as the identity).
The `ConstantExpr` variant (lowered by `gen.irConstantExpr`, outside the
shown source) is not modelled; no claim mentions it. -/
inductive AstConst where
  | boolC (b : Bool)
  | intC (text : String)
  | floatC (text : String)
  | nullC
  | noneC
  | structC (fields : List (Ty × AstConst))
  | arrayC (elems : List (Ty × AstConst))
  | charArrayC (data : List Nat)
  | vectorC (elems : List (Ty × AstConst))
  | zeroInitializerC
  | undefC
  | blockAddressC (funcName blockName : String)
  | globalIdentC (name : String)

mutual

/-- generator.irConstant (src/asm/const.go lines 15-53) together with the
per-variant lowering functions it dispatches to (irBoolConst, irIntConst,
irFloatConst, irNullConst, irNoneConst, irStructConst, irArrayConst,
irCharArrayConst, irVectorConst, irZeroInitializerConst, irUndefConst,
irBlockAddressConst, and the global-identifier lookup).  The generator
state is threaded because block-address lowering appends to the fixup
queue. -/
def irConstant (gen : Gen) (t : Ty) (old : AstConst) : Except Err (Constant × Gen) :=
  match old with
  | .boolC b =>
    match t with
    | .int bits =>
      if bits ≠ 1 then .error (.boolBitSize bits)
      else if b then .ok (constantTrue, gen) else .ok (constantFalse, gen)
    | _ => .error (.typeMismatch "boolean" t)
  | .intC s =>
    match t with
    | .int bits =>
      match newIntFromString (.int bits) s with
      | .error e => .error e
      | .ok c => .ok (c, gen)
    | _ => .error (.typeMismatch "integer" t)
  | .floatC s =>
    match t with
    | .float => .ok (.floatC .float s, gen)
    | _ => .error (.typeMismatch "floating-point" t)
  | .nullC =>
    match t with
    | .ptr => .ok (.null .ptr, gen)
    | _ => .error (.typeMismatch "null" t)
  | .noneC => .ok (.noneC, gen)
  | .structC fields =>
    match t with
    | .structTy =>
      match irTypeConsts gen fields with
      | .error e => .error e
      | .ok (cs, gen') => .ok (.structC .structTy cs, gen')
    | _ => .error (.typeMismatch "struct" t)
  | .arrayC elems =>
    match t with
    | .arrayTy =>
      match irTypeConsts gen elems with
      | .error e => .error e
      | .ok (cs, gen') => .ok (.arrayC .arrayTy cs, gen')
    | _ => .error (.typeMismatch "array" t)
  | .charArrayC data => .ok (.charArray data, gen)
  | .vectorC elems =>
    match t with
    | .vectorTy =>
      match irTypeConsts gen elems with
      | .error e => .error e
      | .ok (cs, gen') => .ok (.vectorC .vectorTy cs, gen')
    | _ => .error (.typeMismatch "vector" t)
  | .zeroInitializerC => .ok (.zeroInit t, gen)
  | .undefC => .ok (.undef t, gen)
  | .blockAddressC funcName blockName => irBlockAddressConst gen t funcName blockName
  | .globalIdentC name =>
    match lookupGS gen.gs name with
    | some v => .ok (v, gen)
    | none => .error (.unresolvedSymbol name)
termination_by sizeOf old

/-- generator.irTypeConst (src/asm/const.go lines 55-63) mapped over an
aggregate's elements: lower each element against its own carried type,
aborting at the first failure. -/
def irTypeConsts (gen : Gen) (l : List (Ty × AstConst)) :
    Except Err (List Constant × Gen) :=
  match l with
  | [] => .ok ([], gen)
  | (ty, v) :: rest =>
    match irConstant gen ty v with
    | .error e => .error e
    | .ok (c, gen') =>
      match irTypeConsts gen' rest with
      | .error e => .error e
      | .ok (cs, gen'') => .ok (c :: cs, gen'')
termination_by sizeOf l

end

/-- A list of IDs is the dense segment start..start+k-1 and the counter moved
from `a` to `b = a + k`. -/
def Seg (ids : List Int) (a b : Int) : Prop :=
  ∃ k : Nat, ids = idsFrom a k ∧ b = a + k

theorem idsFrom_length (a : Int) (k : Nat) : (idsFrom a k).length = k := by
  induction k generalizing a with
  | zero => rfl
  | succ k ih => simp [idsFrom, ih]

theorem idsFrom_append (a : Int) (k m : Nat) :
    idsFrom a k ++ idsFrom (a + k) m = idsFrom a (k + m) := by
  induction k generalizing a with
  | zero => simp [idsFrom]
  | succ k ih =>
    have hcast : a + ((k : Int) + 1) = (a + 1) + k := by ring
    simp only [idsFrom, List.cons_append]
    rw [Nat.cast_add, Nat.cast_one, hcast, ih (a + 1), Nat.add_right_comm]
    simp [idsFrom]

theorem Seg.nil (a : Int) : Seg [] a a :=
  ⟨0, rfl, by simp⟩

theorem Seg.single (a : Int) : Seg [a] a (a + 1) :=
  ⟨1, rfl, by simp⟩

theorem Seg.append {xs ys : List Int} {a b c : Int}
    (h1 : Seg xs a b) (h2 : Seg ys b c) : Seg (xs ++ ys) a c := by
  obtain ⟨k, hk, hb⟩ := h1
  obtain ⟨m, hm, hc⟩ := h2
  refine ⟨k + m, ?_, ?_⟩
  · subst hk hb hm
    exact (idsFrom_append a k m).symm ▸ rfl
  · subst hb hc
    push_cast
    ring

theorem setName_seg {fn : String} {n n' : LocalIdent} {id id' : Int}
    (h : setName fn n id = .ok (n', id')) : Seg (identAnonIDs n') id id' := by
  cases n with
  | named s =>
    simp only [setName, Except.ok.injEq, Prod.mk.injEq] at h
    obtain ⟨h1, h2⟩ := h
    subst h1
    subst h2
    exact Seg.nil id
  | anon i =>
    by_cases hc : i ≠ 0 ∧ id ≠ i
    · simp [setName, hc] at h
    · simp only [setName, if_neg hc, Except.ok.injEq, Prod.mk.injEq] at h
      obtain ⟨h1, h2⟩ := h
      subst h1
      subst h2
      exact Seg.single id

theorem assignInst_seg {fn : String} {i i' : Inst} {id id' : Int}
    (h : assignInst fn i id = .ok (i', id')) : Seg (instAnonIDs i') id id' := by
  cases i with
  | nonvalue =>
    simp only [assignInst, Except.ok.injEq, Prod.mk.injEq] at h
    obtain ⟨h1, h2⟩ := h
    subst h1
    subst h2
    exact Seg.nil id
  | call ty n =>
    by_cases hv : ty = Ty.void
    · simp only [assignInst, if_pos hv, Except.ok.injEq, Prod.mk.injEq] at h
      obtain ⟨h1, h2⟩ := h
      subst h1
      subst h2
      simp only [instAnonIDs, if_pos hv]
      exact Seg.nil id
    · simp only [assignInst, if_neg hv] at h
      cases hs : setName fn n id with
      | error e => rw [hs] at h; cases h
      | ok v =>
        obtain ⟨n', id1⟩ := v
        rw [hs] at h
        simp only [Except.ok.injEq, Prod.mk.injEq] at h
        obtain ⟨h1, h2⟩ := h
        subst h1
        subst h2
        simp only [instAnonIDs, if_neg hv]
        exact setName_seg hs
  | value n =>
    simp only [assignInst] at h
    cases hs : setName fn n id with
    | error e => rw [hs] at h; cases h
    | ok v =>
      obtain ⟨n', id1⟩ := v
      rw [hs] at h
      simp only [Except.ok.injEq, Prod.mk.injEq] at h
      obtain ⟨h1, h2⟩ := h
      subst h1
      subst h2
      simp only [instAnonIDs]
      exact setName_seg hs

theorem assignInsts_seg {fn : String} {l l' : List Inst} {id id' : Int}
    (h : assignInsts fn l id = .ok (l', id')) :
    Seg ((l'.map instAnonIDs).flatten) id id' := by
  induction l generalizing l' id with
  | nil =>
    simp only [assignInsts, Except.ok.injEq, Prod.mk.injEq] at h
    obtain ⟨h1, h2⟩ := h
    subst h1
    subst h2
    exact Seg.nil id
  | cons i rest ih =>
    simp only [assignInsts] at h
    split at h
    · cases h
    · rename_i i1 id1 hi
      split at h
      · cases h
      · rename_i rest1 id2 hr
        simp only [Except.ok.injEq, Prod.mk.injEq] at h
        obtain ⟨h1, h2⟩ := h
        subst h1
        subst h2
        simp only [List.map_cons, List.flatten_cons]
        exact Seg.append (assignInst_seg hi) (ih hr)

theorem assignTerm_seg {fn : String} {t t' : Option Term} {id id' : Int}
    (h : assignTerm fn t id = .ok (t', id')) : Seg (termAnonIDs t') id id' := by
  match t with
  | none =>
    simp only [assignTerm, Except.ok.injEq, Prod.mk.injEq] at h
    obtain ⟨h1, h2⟩ := h
    subst h1
    subst h2
    exact Seg.nil id
  | some .ret =>
    simp only [assignTerm, Except.ok.injEq, Prod.mk.injEq] at h
    obtain ⟨h1, h2⟩ := h
    subst h1
    subst h2
    exact Seg.nil id
  | some (.invoke ty n) =>
    by_cases hv : ty = Ty.void
    · simp only [assignTerm, if_pos hv, Except.ok.injEq, Prod.mk.injEq] at h
      obtain ⟨h1, h2⟩ := h
      subst h1
      subst h2
      simp only [termAnonIDs, if_pos hv]
      exact Seg.nil id
    · simp only [assignTerm, if_neg hv] at h
      cases hs : setName fn n id with
      | error e => rw [hs] at h; cases h
      | ok v =>
        obtain ⟨n', id1⟩ := v
        rw [hs] at h
        simp only [Except.ok.injEq, Prod.mk.injEq] at h
        obtain ⟨h1, h2⟩ := h
        subst h1
        subst h2
        simp only [termAnonIDs, if_neg hv]
        exact setName_seg hs

theorem assignBlock_seg {fn : String} {b b' : Block} {id id' : Int}
    (h : assignBlock fn b id = .ok (b', id')) : Seg (blockAnonIDs b') id id' := by
  simp only [assignBlock] at h
  split at h
  · cases h
  · rename_i n1 id1 hn
    split at h
    · cases h
    · rename_i insts1 id2 hi
      split at h
      · cases h
      · rename_i term1 id3 ht
        simp only [Except.ok.injEq, Prod.mk.injEq] at h
        obtain ⟨h1, h2⟩ := h
        subst h1
        subst h2
        simp only [blockAnonIDs]
        exact Seg.append (Seg.append (setName_seg hn) (assignInsts_seg hi)) (assignTerm_seg ht)

theorem assignBlocks_seg {fn : String} {l l' : List Block} {id id' : Int}
    (h : assignBlocks fn l id = .ok (l', id')) :
    Seg ((l'.map blockAnonIDs).flatten) id id' := by
  induction l generalizing l' id with
  | nil =>
    simp only [assignBlocks, Except.ok.injEq, Prod.mk.injEq] at h
    obtain ⟨h1, h2⟩ := h
    subst h1
    subst h2
    exact Seg.nil id
  | cons b rest ih =>
    simp only [assignBlocks] at h
    split at h
    · cases h
    · rename_i b1 id1 hb
      split at h
      · cases h
      · rename_i rest1 id2 hr
        simp only [Except.ok.injEq, Prod.mk.injEq] at h
        obtain ⟨h1, h2⟩ := h
        subst h1
        subst h2
        simp only [List.map_cons, List.flatten_cons]
        exact Seg.append (assignBlock_seg hb) (ih hr)

theorem assignParams_seg {fn : String} {l l' : List Param} {id id' : Int}
    (h : assignParams fn l id = .ok (l', id')) :
    Seg ((l'.map (fun p => identAnonIDs p.ident)).flatten) id id' := by
  induction l generalizing l' id with
  | nil =>
    simp only [assignParams, Except.ok.injEq, Prod.mk.injEq] at h
    obtain ⟨h1, h2⟩ := h
    subst h1
    subst h2
    exact Seg.nil id
  | cons p rest ih =>
    simp only [assignParams] at h
    split at h
    · cases h
    · rename_i n1 id1 hn
      split at h
      · cases h
      · rename_i rest1 id2 hr
        simp only [Except.ok.injEq, Prod.mk.injEq] at h
        obtain ⟨h1, h2⟩ := h
        subst h1
        subst h2
        simp only [List.map_cons, List.flatten_cons]
        exact Seg.append (setName_seg hn) (ih hr)

theorem Seg.dense {ids : List Int} {a b : Int} (h : Seg ids a b) :
    ids = idsFrom a ids.length := by
  obtain ⟨k, hk, _⟩ := h
  subst hk
  rw [idsFrom_length]

/-- C1: for every function, zero basic blocks make `AssignIDs` a trivial
success that assigns no ID (the function is returned unchanged); with at
least one basic block, a successful `AssignIDs` leaves the anonymous locals
of the function carrying the dense ID sequence 0..N-1, with no gaps or
repeats, in the fixed traversal order captured by `funcAnonIDs`: parameters
in declaration order, then per block in list order the block identity (if
anonymous), the named non-void instruction results, and the named non-void
terminator result. -/
theorem assignIDs_dense_numbering (f : Func) :
    (f.blocks = [] → AssignIDs f = .ok f) ∧
    (∀ f', f.blocks ≠ [] → AssignIDs f = .ok f' →
      funcAnonIDs f' = idsFrom 0 (funcAnonIDs f').length) := by
  constructor
  · intro hb
    simp [AssignIDs, hb]
  · intro f' hb h
    have hne : f.blocks.isEmpty = false := by
      simp [List.isEmpty_iff, hb]
    simp only [AssignIDs, hne, Bool.false_eq_true, if_false] at h
    split at h
    · cases h
    · rename_i ps id1 hp
      split at h
      · cases h
      · rename_i bs id2 hbk
        simp only [Except.ok.injEq] at h
        subst h
        have hseg : Seg (funcAnonIDs { f with params := ps, blocks := bs }) 0 id2 := by
          simp only [funcAnonIDs]
          exact Seg.append (assignParams_seg hp) (assignBlocks_seg hbk)
        exact hseg.dense

theorem setName_idem {fn : String} {n n' : LocalIdent} {id id' : Int}
    (h : setName fn n id = .ok (n', id')) : setName fn n' id = .ok (n', id') := by
  cases n with
  | named s =>
    simp only [setName, Except.ok.injEq, Prod.mk.injEq] at h
    obtain ⟨h1, h2⟩ := h
    subst h1
    subst h2
    rfl
  | anon i =>
    by_cases hc : i ≠ 0 ∧ id ≠ i
    · simp [setName, hc] at h
    · simp only [setName, if_neg hc, Except.ok.injEq, Prod.mk.injEq] at h
      obtain ⟨h1, h2⟩ := h
      subst h1
      subst h2
      simp [setName]

theorem assignInst_idem {fn : String} {i i' : Inst} {id id' : Int}
    (h : assignInst fn i id = .ok (i', id')) : assignInst fn i' id = .ok (i', id') := by
  cases i with
  | nonvalue =>
    simp only [assignInst, Except.ok.injEq, Prod.mk.injEq] at h
    obtain ⟨h1, h2⟩ := h
    subst h1
    subst h2
    rfl
  | call ty n =>
    by_cases hv : ty = Ty.void
    · simp only [assignInst, if_pos hv, Except.ok.injEq, Prod.mk.injEq] at h
      obtain ⟨h1, h2⟩ := h
      subst h1
      subst h2
      simp [assignInst, hv]
    · simp only [assignInst, if_neg hv] at h
      split at h
      · cases h
      · rename_i n1 id1 hs
        simp only [Except.ok.injEq, Prod.mk.injEq] at h
        obtain ⟨h1, h2⟩ := h
        subst h1
        subst h2
        simp only [assignInst, if_neg hv, setName_idem hs]
  | value n =>
    simp only [assignInst] at h
    split at h
    · cases h
    · rename_i n1 id1 hs
      simp only [Except.ok.injEq, Prod.mk.injEq] at h
      obtain ⟨h1, h2⟩ := h
      subst h1
      subst h2
      simp only [assignInst, setName_idem hs]

theorem assignTerm_idem {fn : String} {t t' : Option Term} {id id' : Int}
    (h : assignTerm fn t id = .ok (t', id')) : assignTerm fn t' id = .ok (t', id') := by
  match t with
  | none =>
    simp only [assignTerm, Except.ok.injEq, Prod.mk.injEq] at h
    obtain ⟨h1, h2⟩ := h
    subst h1
    subst h2
    rfl
  | some .ret =>
    simp only [assignTerm, Except.ok.injEq, Prod.mk.injEq] at h
    obtain ⟨h1, h2⟩ := h
    subst h1
    subst h2
    rfl
  | some (.invoke ty n) =>
    by_cases hv : ty = Ty.void
    · simp only [assignTerm, if_pos hv, Except.ok.injEq, Prod.mk.injEq] at h
      obtain ⟨h1, h2⟩ := h
      subst h1
      subst h2
      simp [assignTerm, hv]
    · simp only [assignTerm, if_neg hv] at h
      split at h
      · cases h
      · rename_i n1 id1 hs
        simp only [Except.ok.injEq, Prod.mk.injEq] at h
        obtain ⟨h1, h2⟩ := h
        subst h1
        subst h2
        simp only [assignTerm, if_neg hv, setName_idem hs]

theorem assignInsts_idem {fn : String} {l l' : List Inst} {id id' : Int}
    (h : assignInsts fn l id = .ok (l', id')) : assignInsts fn l' id = .ok (l', id') := by
  induction l generalizing l' id with
  | nil =>
    simp only [assignInsts, Except.ok.injEq, Prod.mk.injEq] at h
    obtain ⟨h1, h2⟩ := h
    subst h1
    subst h2
    rfl
  | cons i rest ih =>
    simp only [assignInsts] at h
    split at h
    · cases h
    · rename_i i1 id1 hi
      split at h
      · cases h
      · rename_i rest1 id2 hr
        simp only [Except.ok.injEq, Prod.mk.injEq] at h
        obtain ⟨h1, h2⟩ := h
        subst h1
        subst h2
        simp only [assignInsts, assignInst_idem hi, ih hr]

theorem assignBlock_idem {fn : String} {b b' : Block} {id id' : Int}
    (h : assignBlock fn b id = .ok (b', id')) : assignBlock fn b' id = .ok (b', id') := by
  simp only [assignBlock] at h
  split at h
  · cases h
  · rename_i n1 id1 hn
    split at h
    · cases h
    · rename_i insts1 id2 hi
      split at h
      · cases h
      · rename_i term1 id3 ht
        simp only [Except.ok.injEq, Prod.mk.injEq] at h
        obtain ⟨h1, h2⟩ := h
        subst h1
        subst h2
        simp only [assignBlock, setName_idem hn, assignInsts_idem hi, assignTerm_idem ht]

theorem assignBlocks_idem {fn : String} {l l' : List Block} {id id' : Int}
    (h : assignBlocks fn l id = .ok (l', id')) : assignBlocks fn l' id = .ok (l', id') := by
  induction l generalizing l' id with
  | nil =>
    simp only [assignBlocks, Except.ok.injEq, Prod.mk.injEq] at h
    obtain ⟨h1, h2⟩ := h
    subst h1
    subst h2
    rfl
  | cons b rest ih =>
    simp only [assignBlocks] at h
    split at h
    · cases h
    · rename_i b1 id1 hb
      split at h
      · cases h
      · rename_i rest1 id2 hr
        simp only [Except.ok.injEq, Prod.mk.injEq] at h
        obtain ⟨h1, h2⟩ := h
        subst h1
        subst h2
        simp only [assignBlocks, assignBlock_idem hb, ih hr]

theorem assignParams_idem {fn : String} {l l' : List Param} {id id' : Int}
    (h : assignParams fn l id = .ok (l', id')) : assignParams fn l' id = .ok (l', id') := by
  induction l generalizing l' id with
  | nil =>
    simp only [assignParams, Except.ok.injEq, Prod.mk.injEq] at h
    obtain ⟨h1, h2⟩ := h
    subst h1
    subst h2
    rfl
  | cons p rest ih =>
    simp only [assignParams] at h
    split at h
    · cases h
    · rename_i n1 id1 hn
      split at h
      · cases h
      · rename_i rest1 id2 hr
        simp only [Except.ok.injEq, Prod.mk.injEq] at h
        obtain ⟨h1, h2⟩ := h
        subst h1
        subst h2
        simp only [assignParams, setName_idem hn, ih hr]

theorem assignBlocks_length {fn : String} {l l' : List Block} {id id' : Int}
    (h : assignBlocks fn l id = .ok (l', id')) : l'.length = l.length := by
  induction l generalizing l' id with
  | nil =>
    simp only [assignBlocks, Except.ok.injEq, Prod.mk.injEq] at h
    obtain ⟨h1, h2⟩ := h
    subst h1
    rfl
  | cons b rest ih =>
    simp only [assignBlocks] at h
    split at h
    · cases h
    · rename_i b1 id1 hb
      split at h
      · cases h
      · rename_i rest1 id2 hr
        simp only [Except.ok.injEq, Prod.mk.injEq] at h
        obtain ⟨h1, h2⟩ := h
        subst h1
        subst h2
        simp [ih hr]

/-- C8: local-ID assignment is idempotent — when `AssignIDs` succeeds on a
function, running it again on the (unmodified) renumbered function succeeds
and returns exactly the same ID assignment on every anonymous local. -/
theorem assignIDs_idempotent (f f' : Func) (h : AssignIDs f = .ok f') :
    AssignIDs f' = .ok f' := by
  by_cases hb : f.blocks.isEmpty
  · simp only [AssignIDs, hb, if_true, Except.ok.injEq] at h
    subst h
    simp [AssignIDs, hb]
  · simp only [AssignIDs, hb, Bool.false_eq_true, if_false] at h
    split at h
    · cases h
    · rename_i ps id1 hp
      split at h
      · cases h
      · rename_i bs id2 hbk
        simp only [Except.ok.injEq] at h
        subst h
        have hlen : bs.length = f.blocks.length := assignBlocks_length hbk
        have hbs : bs.isEmpty = false := by
          cases hbsl : bs with
          | nil =>
            rw [hbsl] at hlen
            cases hfb : f.blocks with
            | nil => rw [hfb] at hb; simp at hb
            | cons x xs => rw [hfb] at hlen; simp at hlen
          | cons x xs => rfl
        simp only [AssignIDs, hbs, Bool.false_eq_true, if_false]
        simp only [assignParams_idem hp, assignBlocks_idem hbk]

/-- Concrete input for the C1 witness: an anonymous and a named parameter,
then one anonymous block holding a value instruction with an anonymous
result, a void call, a non-value instruction, and a non-void invoke
terminator with an anonymous result. -/
def c1Func : Func :=
  { name := "w1",
    params := [{ text := "i32 %0", ident := .anon 0 }, { text := "i32 %x", ident := .named "x" }],
    blocks := [{ name := .anon 0,
                 insts := [.value (.anon 0), .call .void (.named "c"), .nonvalue],
                 term := some (.invoke .ptr (.anon 0)) }] }

/-- The renumbered form of `c1Func`: anonymous locals carry 0, 1, 2, 3 in
traversal order (parameter, block identity, value result, invoke result). -/
def c1Res : Func :=
  { name := "w1",
    params := [{ text := "i32 %0", ident := .anon 0 }, { text := "i32 %x", ident := .named "x" }],
    blocks := [{ name := .anon 1,
                 insts := [.value (.anon 2), .call .void (.named "c"), .nonvalue],
                 term := some (.invoke .ptr (.anon 3)) }] }

/-- Witness for C1 at a concrete function. -/
theorem assignIDs_dense_numbering_witness :
    funcAnonIDs c1Res = idsFrom 0 (funcAnonIDs c1Res).length :=
  (assignIDs_dense_numbering c1Func).2 c1Res (by decide) (by rfl)

/-- Witness for C8 at a concrete function. -/
theorem assignIDs_idempotent_witness : AssignIDs c1Res = .ok c1Res :=
  assignIDs_idempotent c1Func c1Res (by rfl)

/-- C6: a call instruction or invoke terminator of void result type is
skipped by local-ID assignment and consumes no numbering slot (its
identifier is left untouched and the counter does not advance); in a block
whose only instruction is a void call followed by `ret void`, only the
block's own anonymous identity is numbered (the counter ends at 1). -/
theorem void_call_invoke_skip :
    (∀ (fn : String) (n : LocalIdent) (id : Int),
      assignInst fn (.call .void n) id = .ok (.call .void n, id)) ∧
    (∀ (fn : String) (n : LocalIdent) (id : Int),
      assignTerm fn (some (.invoke .void n)) id = .ok (some (.invoke .void n), id)) ∧
    (∀ (fn : String) (cn : LocalIdent),
      assignBlock fn { name := .anon 0, insts := [.call .void cn], term := some .ret } 0 =
        .ok ({ name := .anon 0, insts := [.call .void cn], term := some .ret }, 1)) ∧
    (∀ (cn : LocalIdent),
      AssignIDs { name := "v", blocks := [{ name := .anon 0, insts := [.call .void cn], term := some .ret }] } =
        .ok { name := "v", blocks := [{ name := .anon 0, insts := [.call .void cn], term := some .ret }] }) := by
  refine ⟨?_, ?_, ?_, ?_⟩
  · intro fn n id
    simp [assignInst]
  · intro fn n id
    simp [assignTerm]
  · intro fn cn
    simp [assignBlock, setName, assignInsts, assignInst, assignTerm]
  · intro cn
    simp [AssignIDs, assignParams, assignBlocks, assignBlock, setName, assignInsts,
      assignInst, assignTerm]

/-- C7: during numbering, an anonymous local that already carries an
explicit non-zero ID must carry exactly the next expected sequence value;
on mismatch the pass fails with `invalidLocalID` reporting the expected and
the actual ID (and the enclosing function), as `AssignIDs` propagates from
its `setName` step. -/
theorem invalid_local_id_on_mismatch :
    (∀ (fn : String) (i id : Int), i ≠ 0 → id ≠ i →
      setName fn (.anon i) id = .error (.invalidLocalID fn id i)) ∧
    (∀ (fn : String) (i id : Int), i ≠ 0 → id = i →
      setName fn (.anon i) id = .ok (.anon id, id + 1)) ∧
    (∀ (k : Int), k ≠ 0 →
      AssignIDs { name := "g",
                  params := [{ text := "i32 %p", ident := .anon k }],
                  blocks := [{ name := .named "entry", insts := [], term := some .ret }] } =
        .error (.invalidLocalID "g" 0 k)) := by
  refine ⟨?_, ?_, ?_⟩
  · intro fn i id hi hid
    simp [setName, hi, hid]
  · intro fn i id hi hid
    subst hid
    simp [setName]
  · intro k hk
    have h0 : ¬((0 : Int) = k) := fun h => hk h.symm
    simp [AssignIDs, assignParams, setName, hk, h0]

/-- Witness for C7 at concrete IDs and a concrete function. -/
theorem invalid_local_id_on_mismatch_witness :
    setName "g" (.anon 5) 0 = .error (.invalidLocalID "g" 0 5) ∧
    setName "g" (.anon 3) 3 = .ok (.anon 3, 3 + 1) ∧
    AssignIDs { name := "g",
                params := [{ text := "i32 %p", ident := .anon 5 }],
                blocks := [{ name := .named "entry", insts := [], term := some .ret }] } =
      .error (.invalidLocalID "g" 0 5) :=
  ⟨invalid_local_id_on_mismatch.1 "g" 5 0 (by decide) (by decide),
   invalid_local_id_on_mismatch.2.1 "g" 3 3 (by decide) rfl,
   invalid_local_id_on_mismatch.2.2 5 (by decide)⟩

/-- C10: a pre-existing explicit ID equal to 0 on an anonymous local is the
unassigned sentinel: `setName` never validates it at any sequence position
and silently overwrites it with the next sequence value; concretely, a
function whose second block carries a stale explicit ID 0 at sequence
position 1 passes numbering without error and the stale 0 is overwritten
with 1. -/
theorem stale_zero_id_never_validated :
    (∀ (fn : String) (id : Int), setName fn (.anon 0) id = .ok (.anon id, id + 1)) ∧
    AssignIDs { name := "h",
                blocks := [{ name := .anon 0, insts := [], term := some .ret },
                           { name := .anon 0, insts := [], term := some .ret }] } =
      .ok { name := "h",
            blocks := [{ name := .anon 0, insts := [], term := some .ret },
                       { name := .anon 1, insts := [], term := some .ret }] } := by
  constructor
  · intro fn id
    simp [setName]
  · rfl

theorem findBlockByName_some {l : List Block} {name : String} {b : Block}
    (h : findBlockByName l name = some b) : b ∈ l ∧ b.localName = name := by
  induction l with
  | nil => cases h
  | cons x xs ih =>
    by_cases hx : x.localName = name
    · simp only [findBlockByName, if_pos hx, Option.some.injEq] at h
      subst h
      exact ⟨List.mem_cons_self x xs, hx⟩
    · simp only [findBlockByName, if_neg hx] at h
      exact ⟨List.mem_cons_of_mem x (ih h).1, (ih h).2⟩

theorem findBlockByName_none {l : List Block} {name : String}
    (h : ∀ b ∈ l, b.localName ≠ name) : findBlockByName l name = none := by
  induction l with
  | nil => rfl
  | cons x xs ih =>
    simp only [findBlockByName, if_neg (h x (List.mem_cons_self x xs))]
    exact ih (fun b hb => h b (List.mem_cons_of_mem x hb))

/-- C2: lowering a block-address constant resolves the function eagerly,
returns a constant holding a placeholder block that carries only the
referenced block name, and appends that constant to the deferred-fixup
queue; `fixBlockAddressConst`, run once the function's block list is final,
replaces the placeholder with the exact block of that function whose name
equals the placeholder's name, and fails with a dangling-block-reference
error naming both the block and the function when no such block exists. -/
theorem blockAddress_lowering_and_fixup :
    (∀ (gen : Gen) (t : Ty) (funcName blockName : String) (f : Func),
      gen.function funcName = .ok f →
      irBlockAddressConst gen t funcName blockName =
        .ok (.blockAddr f { name := .named blockName },
          { gen with
              todo := gen.todo ++ [{ fn := f, block := { name := .named blockName } }] })) ∧
    (∀ (c : BlockAddress) (b : Block),
      findBlockByName c.fn.blocks c.block.localName = some b →
      fixBlockAddressConst c = .ok { c with block := b } ∧
        b ∈ c.fn.blocks ∧ b.localName = c.block.localName) ∧
    (∀ (c : BlockAddress),
      (∀ b ∈ c.fn.blocks, b.localName ≠ c.block.localName) →
      fixBlockAddressConst c = .error (.danglingBlockReference c.block.localName c.fn.name)) := by
  refine ⟨?_, ?_, ?_⟩
  · intro gen t funcName blockName f h
    simp [irBlockAddressConst, h]
  · intro c b h
    exact ⟨by simp [fixBlockAddressConst, h], (findBlockByName_some h).1,
      (findBlockByName_some h).2⟩
  · intro c h
    simp [fixBlockAddressConst, findBlockByName_none h]

/-- Concrete function for the C2 witness: two named blocks, `entry` and
`loop`. -/
def c2F : Func :=
  { name := "f",
    blocks := [{ name := .named "entry", insts := [], term := some .ret },
               { name := .named "loop", insts := [], term := some .ret }] }

/-- Generator state for the C2 witness: the symbol table holds `@f`. -/
def c2Gen : Gen :=
  { gs := [("f", .funcC c2F)], todo := [] }

/-- Queued block-address constant referencing the existing block `%loop`. -/
def c2Const : BlockAddress :=
  { fn := c2F, block := { name := .named "loop" } }

/-- Queued block-address constant referencing the missing block `%nope`. -/
def c2Dangling : BlockAddress :=
  { fn := c2F, block := { name := .named "nope" } }

/-- Witness for C2 at concrete inputs: lowering `blockaddress(@f, %loop)`
queues a placeholder; fixup rebinds it to the real `%loop` block; fixup of
`blockaddress(@f, %nope)` reports the dangling reference. -/
theorem blockAddress_lowering_and_fixup_witness :
    irBlockAddressConst c2Gen .ptr "f" "loop" =
      .ok (.blockAddr c2F { name := .named "loop" }, { c2Gen with todo := [c2Const] }) ∧
    fixBlockAddressConst c2Const =
      .ok { c2Const with block := { name := .named "loop", insts := [], term := some .ret } } ∧
    fixBlockAddressConst c2Dangling = .error (.danglingBlockReference "nope" "f") :=
  ⟨blockAddress_lowering_and_fixup.1 c2Gen .ptr "f" "loop" c2F (by rfl),
   (blockAddress_lowering_and_fixup.2.1 c2Const
      { name := .named "loop", insts := [], term := some .ret } (by rfl)).1,
   blockAddress_lowering_and_fixup.2.2 c2Dangling (by decide)⟩

/-- Shape tests of the expected type, as performed by the Go type assertions
in constant lowering. -/
def Ty.isIntType : Ty → Bool
  | .int _ => true
  | _ => false

/-- Shape test for *types.FloatType. -/
def Ty.isFloatType : Ty → Bool
  | .float => true
  | _ => false

/-- Shape test for *types.PointerType. -/
def Ty.isPointerType : Ty → Bool
  | .ptr => true
  | _ => false

/-- Shape test for *types.StructType. -/
def Ty.isStructType : Ty → Bool
  | .structTy => true
  | _ => false

/-- Shape test for *types.ArrayType. -/
def Ty.isArrayType : Ty → Bool
  | .arrayTy => true
  | _ => false

/-- Shape test for *types.VectorType. -/
def Ty.isVectorType : Ty → Bool
  | .vectorTy => true
  | _ => false

/-- C4: for the type-checked AST constant variants, lowering fails with a
type-mismatch error whenever the expected type's variant does not match the
constant's shape; a boolean constant additionally requires an integer type
of exactly 1 bit (failing with the bit-size error otherwise) and lowers, on
success, to the 1-bit integer constant true or false. -/
theorem irConstant_typeMismatch_checked_variants (gen : Gen) (t : Ty) :
    (∀ b : Bool, t.isIntType = false →
      irConstant gen t (.boolC b) = .error (.typeMismatch "boolean" t)) ∧
    (∀ (b : Bool) (w : Nat), t = .int w → w ≠ 1 →
      irConstant gen t (.boolC b) = .error (.boolBitSize w)) ∧
    (∀ b : Bool, irConstant gen (.int 1) (.boolC b) =
      .ok (if b then constantTrue else constantFalse, gen)) ∧
    (∀ s : String, t.isIntType = false →
      irConstant gen t (.intC s) = .error (.typeMismatch "integer" t)) ∧
    (∀ s : String, t.isFloatType = false →
      irConstant gen t (.floatC s) = .error (.typeMismatch "floating-point" t)) ∧
    (t.isPointerType = false →
      irConstant gen t .nullC = .error (.typeMismatch "null" t)) ∧
    (∀ fs : List (Ty × AstConst), t.isStructType = false →
      irConstant gen t (.structC fs) = .error (.typeMismatch "struct" t)) ∧
    (∀ es : List (Ty × AstConst), t.isArrayType = false →
      irConstant gen t (.arrayC es) = .error (.typeMismatch "array" t)) ∧
    (∀ es : List (Ty × AstConst), t.isVectorType = false →
      irConstant gen t (.vectorC es) = .error (.typeMismatch "vector" t)) := by
  refine ⟨?_, ?_, ?_, ?_, ?_, ?_, ?_, ?_, ?_⟩
  · intro b ht
    cases t <;> simp_all [irConstant, Ty.isIntType]
  · intro b w ht hw
    subst ht
    simp [irConstant, hw]
  · intro b
    cases b <;> simp [irConstant]
  · intro s ht
    cases t <;> simp_all [irConstant, Ty.isIntType]
  · intro s ht
    cases t <;> simp_all [irConstant, Ty.isFloatType]
  · intro ht
    cases t <;> simp_all [irConstant, Ty.isPointerType]
  · intro fs ht
    cases t <;> simp_all [irConstant, Ty.isStructType]
  · intro es ht
    cases t <;> simp_all [irConstant, Ty.isArrayType]
  · intro es ht
    cases t <;> simp_all [irConstant, Ty.isVectorType]

/-- Witness for C4 at concrete types and constants. -/
theorem irConstant_typeMismatch_checked_variants_witness :
    irConstant {} .float (.boolC true) = .error (.typeMismatch "boolean" .float) ∧
    irConstant {} (.int 8) (.boolC true) = .error (.boolBitSize 8) ∧
    irConstant {} (.int 1) (.boolC true) = .ok (constantTrue, {}) ∧
    irConstant {} .ptr (.intC "42") = .error (.typeMismatch "integer" .ptr) ∧
    irConstant {} (.int 32) (.floatC "1.5") = .error (.typeMismatch "floating-point" (.int 32)) ∧
    irConstant {} .structTy .nullC = .error (.typeMismatch "null" .structTy) ∧
    irConstant {} (.int 64) (.structC []) = .error (.typeMismatch "struct" (.int 64)) ∧
    irConstant {} .vectorTy (.arrayC []) = .error (.typeMismatch "array" .vectorTy) ∧
    irConstant {} .arrayTy (.vectorC []) = .error (.typeMismatch "vector" .arrayTy) :=
  ⟨(irConstant_typeMismatch_checked_variants {} .float).1 true rfl,
   (irConstant_typeMismatch_checked_variants {} (.int 8)).2.1 true 8 rfl (by decide),
   (irConstant_typeMismatch_checked_variants {} (.int 1)).2.2.1 true,
   (irConstant_typeMismatch_checked_variants {} .ptr).2.2.2.1 "42" rfl,
   (irConstant_typeMismatch_checked_variants {} (.int 32)).2.2.2.2.1 "1.5" rfl,
   (irConstant_typeMismatch_checked_variants {} .structTy).2.2.2.2.2.1 rfl,
   (irConstant_typeMismatch_checked_variants {} (.int 64)).2.2.2.2.2.2.1 [] rfl,
   (irConstant_typeMismatch_checked_variants {} .vectorTy).2.2.2.2.2.2.2.1 [] rfl,
   (irConstant_typeMismatch_checked_variants {} .arrayTy).2.2.2.2.2.2.2.2 [] rfl⟩

/-- C9: the zero-initializer, undef, char-array and none-token variants are
lowered with no cross-check of the expected type: for every expected type
whatsoever they succeed, none-token yielding the shared none constant,
char-array yielding a byte-blob constant derived only from the literal, and
zero-initializer/undef yielding constants carrying the expected type
unexamined. -/
theorem deferred_validation_variants_always_succeed (gen : Gen) (t : Ty) :
    irConstant gen t .noneC = .ok (.noneC, gen) ∧
    (∀ d : List Nat, irConstant gen t (.charArrayC d) = .ok (.charArray d, gen)) ∧
    irConstant gen t .zeroInitializerC = .ok (.zeroInit t, gen) ∧
    irConstant gen t .undefC = .ok (.undef t, gen) := by
  refine ⟨?_, ?_, ?_, ?_⟩ <;> simp [irConstant]

theorem spacedConcat_append (l1 l2 : List String) :
    spacedConcat (l1 ++ l2) = spacedConcat l1 ++ spacedConcat l2 := by
  induction l1 with
  | nil => simp [spacedConcat, String.empty_append]
  | cons s rest ih => simp [spacedConcat, ih, String.append_assoc]

theorem spacedConcat_single (s : String) : spacedConcat [s] = " " ++ s := by
  simp [spacedConcat, String.append_empty]

theorem spacedConcat_toList (o : Option String) :
    spacedConcat o.toList = optField o := by
  cases o with
  | none => rfl
  | some s => simp [Option.toList, spacedConcat_single, optField]

theorem spacedConcat_sectionGroup (s : String) :
    spacedConcat (if s.length > 0 then ["section " ++ quote s] else []) =
      (if s.length > 0 then " section " ++ quote s else "") := by
  split
  · rw [spacedConcat_single, ← String.append_assoc]
    rfl
  · rfl

theorem spacedConcat_gcGroup (s : String) :
    spacedConcat (if s.length > 0 then ["gc " ++ quote s] else []) =
      (if s.length > 0 then " gc " ++ quote s else "") := by
  split
  · rw [spacedConcat_single, ← String.append_assoc]
    rfl
  · rfl

theorem spacedConcat_comdatGroup (o : Option Comdat) (fname : String) :
    spacedConcat
        (match o with
         | none => []
         | some c => [if c.name = fname then "comdat" else c.refText]) =
      (match o with
       | none => ""
       | some c => if c.name = fname then " comdat" else " " ++ c.refText) := by
  cases o with
  | none => rfl
  | some c =>
    show spacedConcat [if c.name = fname then "comdat" else c.refText] =
      if c.name = fname then " comdat" else " " ++ c.refText
    by_cases hc : c.name = fname
    · rw [if_pos hc, if_pos hc]
      rfl
    · rw [if_neg hc, if_neg hc]
      exact spacedConcat_single c.refText

theorem spacedConcat_prefixGroup (o : Option String) :
    spacedConcat (match o with | none => [] | some s => ["prefix " ++ s]) =
      (match o with | none => "" | some s => " prefix " ++ s) := by
  cases o with
  | none => rfl
  | some s =>
    rw [spacedConcat_single, ← String.append_assoc]
    rfl

theorem spacedConcat_prologueGroup (o : Option String) :
    spacedConcat (match o with | none => [] | some s => ["prologue " ++ s]) =
      (match o with | none => "" | some s => " prologue " ++ s) := by
  cases o with
  | none => rfl
  | some s =>
    rw [spacedConcat_single, ← String.append_assoc]
    rfl

theorem spacedConcat_personalityGroup (o : Option String) :
    spacedConcat (match o with | none => [] | some s => ["personality " ++ s]) =
      (match o with | none => "" | some s => " personality " ++ s) := by
  cases o with
  | none => rfl
  | some s =>
    rw [spacedConcat_single, ← String.append_assoc]
    rfl

/-- C3: the printed function header equals the spec-side rendering — the
fixed ordered field list of `specHeaderFields` (preemption, visibility, DLL
storage class, calling convention, return attributes, return type,
identifier with parenthesized parameter list and trailing `...` when
variadic, unnamed-address, function attributes, quoted section, comdat
clause collapsing to the bare keyword when the comdat's name equals the
function's own name, quoted GC tag, prefix, prologue, personality), each
field present only when non-default and preceded by exactly one space.
Field order is a function of the record only, not of any setting order. -/
theorem headerString_fixed_field_order (f : Func) :
    headerString f = specHeaderString f := by
  rw [specHeaderString, specHeaderFields]
  simp only [spacedConcat_append, spacedConcat_toList, spacedConcat_single,
    spacedConcat_sectionGroup, spacedConcat_gcGroup, spacedConcat_comdatGroup,
    spacedConcat_prefixGroup, spacedConcat_prologueGroup, spacedConcat_personalityGroup]
  rw [headerString]
  simp only [String.append_assoc]

/-- Concrete function definition whose numbering fails: its single block
carries the stale explicit ID 7 at sequence position 0. -/
def c5Func : Func :=
  { name := "f", blocks := [{ name := .anon 7, insts := [], term := some .ret }] }

/-- C5 counterexample: on `c5Func`, local-ID assignment fails, and
`LLString` does not surface that failure as a returned, recoverable
success-or-error result — it aborts with a panic (the `panicked` outcome,
mirroring the Go `panic` in src/ir/func.go line 132) wrapping the numbering
error. -/
theorem llstring_panics_on_numbering_failure_cex :
    AssignIDs c5Func = .error (.invalidLocalID "f" 0 7) ∧
    LLString c5Func = .panicked (.invalidLocalID "f" 0 7) := by
  constructor <;> rfl

/-- C5 (amended): printing a function definition runs local-ID assignment
first, and when the numbering fails, printing aborts with a panic that
wraps the numbering error — an unrecoverable abort, not a returned
recoverable error value. -/
theorem llstring_propagates_numbering_failure_as_panic (f : Func) (e : Err)
    (h : AssignIDs f = .error e) : LLString f = .panicked e := by
  cases hbe : f.blocks.isEmpty with
  | true =>
    exfalso
    simp [AssignIDs, hbe] at h
  | false =>
    simp only [LLString, hbe, Bool.false_eq_true, if_false, h]

/-- Witness for the amended C5 at a concrete function. -/
theorem llstring_propagates_numbering_failure_as_panic_witness :
    LLString { name := "w5", blocks := [{ name := .anon 9, insts := [], term := some .ret }] } =
      .panicked (.invalidLocalID "w5" 0 9) :=
  llstring_propagates_numbering_failure_as_panic
    { name := "w5", blocks := [{ name := .anon 9, insts := [], term := some .ret }] }
    (.invalidLocalID "w5" 0 9) (by rfl)
